import Mathlib

/-
Verification of the hftcore event fabric against its specification.

The Rust sources are shallowly embedded: pure functions become Lean
functions, the stateful TradeGate socket loop becomes an explicit
transition system on a state record, machine integers become Nat/Int
with explicit wrap-around where the code casts, and f64 values are
modelled exactly (rationals plus the non-finite points) since IEEE
rounding plays no role in any claim considered here.
-/

set_option maxRecDepth 4000

-- ═══════════════════════════════════════════════════════════════════
-- Byte and digit utilities
-- ═══════════════════════════════════════════════════════════════════

/-- Bytes of an ASCII string. All strings fed to the signer and the
key hasher in this code base (API keys, query strings) are ASCII, so a
character-to-code-point map coincides with UTF-8 encoding. -/
def asciiBytes (s : String) : List Nat :=
  s.data.map (fun c => c.toNat)

/-- Uppercase of an ASCII string (`str::to_uppercase`; every string
the code uppercases — venue symbols and side strings — is ASCII, where
Rust's Unicode uppercasing is plain ASCII uppercasing). -/
def asciiUpper (s : String) : String :=
  String.mk (s.data.map Char.toUpper)

/-- Numeric value of a decimal digit character. -/
def digitVal (c : Char) : Nat := c.toNat - '0'.toNat

/-- Split a leading run of decimal digits off a character list. -/
def takeDigits : List Char → (List Nat × List Char)
  | [] => ([], [])
  | c :: cs =>
    if c.isDigit then
      let p := takeDigits cs
      (digitVal c :: p.1, p.2)
    else ([], c :: cs)

/-- Value of a big-endian digit list. -/
def natOfDigits (ds : List Nat) : Nat :=
  ds.foldl (fun acc d => 10 * acc + d) 0

/-- Lowercase hex digit for a value below 16. -/
def hexDigit (n : Nat) : Char :=
  if n < 10 then Char.ofNat ('0'.toNat + n)
  else Char.ofNat ('a'.toNat + (n - 10))

/-- Lowercase hex encoding of a byte list, as produced by
`hex::encode` and by `format!("{:x}", digest)`. -/
def hexEncode (bs : List Nat) : String :=
  String.mk (bs.flatMap (fun b => [hexDigit (b / 16), hexDigit (b % 16)]))

-- ═══════════════════════════════════════════════════════════════════
-- SHA-256 and HMAC-SHA-256 (the `sha2` / `hmac` crates)
-- ═══════════════════════════════════════════════════════════════════

/-- Word size modulus for the 32-bit arithmetic of SHA-256. -/
def w32 : Nat := 2 ^ 32

/-- Right rotation of a 32-bit word. -/
def rotr32 (n x : Nat) : Nat :=
  (x / 2 ^ n + (x % 2 ^ n) * 2 ^ (32 - n)) % w32

/-- Logical right shift of a 32-bit word. -/
def shr32 (n x : Nat) : Nat := x / 2 ^ n

/-- Bitwise complement of a 32-bit word. -/
def not32 (x : Nat) : Nat := (w32 - 1) - x % w32

/-- SHA-256 round constants (the fractional parts of the cube roots
of the first 64 primes, written in decimal). -/
def sha256K : List Nat :=
  [1116352408, 1899447441, 3049323471, 3921009573, 961987163,
   1508970993, 2453635748, 2870763221, 3624381080, 310598401,
   607225278, 1426881987, 1925078388, 2162078206, 2614888103,
   3248222580, 3835390401, 4022224774, 264347078, 604807628,
   770255983, 1249150122, 1555081692, 1996064986, 2554220882,
   2821834349, 2952996808, 3210313671, 3336571891, 3584528711,
   113926993, 338241895, 666307205, 773529912, 1294757372,
   1396182291, 1695183700, 1986661051, 2177026350, 2456956037,
   2730485921, 2820302411, 3259730800, 3345764771, 3516065817,
   3600352804, 4094571909, 275423344, 430227734, 506948616,
   659060556, 883997877, 958139571, 1322822218, 1537002063,
   1747873779, 1955562222, 2024104815, 2227730452, 2361852424,
   2428436474, 2756734187, 3204031479, 3329325298]

/-- SHA-256 initial hash state, in decimal. -/
def sha256H0 : List Nat :=
  [1779033703, 3144134277, 1013904242, 2773480762,
   1359893119, 2600822924, 528734635, 1541459225]

/-- Big-endian bytes of a value, fixed width. -/
def beBytes (width n : Nat) : List Nat :=
  (List.range width).map (fun i => n / 2 ^ (8 * (width - 1 - i)) % 256)

/-- SHA-256 message padding: a 0x80 byte, zeros to 56 mod 64, and the
bit length as a 64-bit big-endian integer. -/
def sha256Pad (msg : List Nat) : List Nat :=
  let len := msg.length
  let zeros := (64 + 55 - len % 64) % 64
  msg ++ [128] ++ List.replicate zeros 0 ++ beBytes 8 (8 * len)

/-- Group a byte list into big-endian 32-bit words. -/
def bytesToWords : List Nat → List Nat
  | b0 :: b1 :: b2 :: b3 :: rest =>
    (((b0 * 256 + b1) * 256 + b2) * 256 + b3) :: bytesToWords rest
  | _ => []

/-- Message-schedule extension: grow the 16 block words to 64. -/
def sha256Extend (ws : List Nat) : Nat → List Nat
  | 0 => ws
  | n + 1 =>
    let ws := sha256Extend ws n
    let i := ws.length
    let w15 := ws.getD (i - 15) 0
    let w2 := ws.getD (i - 2) 0
    let s0 := Nat.xor (Nat.xor (rotr32 7 w15) (rotr32 18 w15)) (shr32 3 w15)
    let s1 := Nat.xor (Nat.xor (rotr32 17 w2) (rotr32 19 w2)) (shr32 10 w2)
    ws ++ [(ws.getD (i - 16) 0 + s0 + ws.getD (i - 7) 0 + s1) % w32]

/-- One round of the SHA-256 compression function. -/
def sha256Round (st : List Nat) (kw : Nat × Nat) : List Nat :=
  match st with
  | [a, b, c, d, e, f, g, h] =>
    let s1 := Nat.xor (Nat.xor (rotr32 6 e) (rotr32 11 e)) (rotr32 25 e)
    let ch := Nat.xor (Nat.land e f) (Nat.land (not32 e) g)
    let t1 := (h + s1 + ch + kw.1 + kw.2) % w32
    let s0 := Nat.xor (Nat.xor (rotr32 2 a) (rotr32 13 a)) (rotr32 22 a)
    let mj := Nat.xor (Nat.xor (Nat.land a b) (Nat.land a c)) (Nat.land b c)
    let t2 := (s0 + mj) % w32
    [(t1 + t2) % w32, a, b, c, (d + t1) % w32, e, f, g]
  | st => st

/-- Compress one 64-byte block into the running hash state. -/
def sha256Block (h : List Nat) (block : List Nat) : List Nat :=
  let ws := sha256Extend (bytesToWords block) 48
  let st := (sha256K.zip ws).foldl sha256Round h
  (h.zip st).map (fun p => (p.1 + p.2) % w32)

/-- Split a byte list into 64-byte chunks, structurally recursive on
a fuel counter bounded by the list length (each step consumes at least
one byte, so the fuel never runs out first). -/
def chunks64Go : Nat → List Nat → List (List Nat)
  | 0, _ => []
  | _, [] => []
  | fuel + 1, b :: bs => (b :: bs).take 64 :: chunks64Go fuel ((b :: bs).drop 64)

/-- Split a byte list into 64-byte chunks. -/
def chunks64 (bs : List Nat) : List (List Nat) :=
  chunks64Go bs.length bs

/-- SHA-256 digest of a byte list. -/
def sha256 (msg : List Nat) : List Nat :=
  let final := (chunks64 (sha256Pad msg)).foldl sha256Block sha256H0
  final.flatMap (beBytes 4)

/-- HMAC-SHA-256 with a key of at most 64 bytes (API secrets here are
well below the block size, so the key-hashing branch never runs; it is
included for faithfulness). -/
def hmacSha256 (key msg : List Nat) : List Nat :=
  let key := if key.length > 64 then sha256 key else key
  let key := key ++ List.replicate (64 - key.length) 0
  let ipad := key.map (fun b => Nat.xor b 54)
  let opad := key.map (fun b => Nat.xor b 92)
  sha256 (opad ++ sha256 (ipad ++ msg))

-- ═══════════════════════════════════════════════════════════════════
-- JSON values (`serde_json::Value`, at the shape the code inspects)
-- ═══════════════════════════════════════════════════════════════════

/-- JSON values as the code inspects them. Numbers are carried as
unbounded integers: every number the gateway reads out of a response
goes through `as_i64`, which is modelled with its i64 range check, so
non-integral numbers (on which `as_i64` also fails) are representable
as out-of-range markers only through `str`/`null`; responses carrying
float numbers are outside this model and none of the claims need them. -/
inductive Json where
  | null : Json
  | bool : Bool → Json
  | num : Int → Json
  | str : String → Json
  | arr : List Json → Json
  | obj : List (String × Json) → Json

/-- Field lookup, as `Value::get(key)`: `None` on a non-object or a
missing key, the first binding otherwise. -/
def Json.get : Json → String → Option Json
  | .obj kvs, k =>
    match kvs.find? (fun kv => kv.1 = k) with
    | some kv => some kv.2
    | none => none
  | _, _ => none

/-- Bracket indexing, as `value[key]`: missing keys and non-objects
yield `Value::Null`. -/
def Json.index (v : Json) (k : String) : Json :=
  (v.get k).getD .null

/-- The `as_i64` accessor: an integer number within the i64 range. -/
def Json.asI64 : Json → Option Int
  | .num n => if -(2 ^ 63) ≤ n ∧ n < 2 ^ 63 then some n else none
  | _ => none

/-- The `as_str` accessor. -/
def Json.asStr : Json → Option String
  | .str s => some s
  | _ => none

/-- Two's-complement truncation of an i64 to i32, the `as i32` cast. -/
def toI32 (n : Int) : Int :=
  (n + 2 ^ 31) % 2 ^ 32 - 2 ^ 31

-- ═══════════════════════════════════════════════════════════════════
-- src/strategies/order.rs — OrderGateway FFI surface
-- ═══════════════════════════════════════════════════════════════════

/-- The C-ABI `OrderResult` record (`success: bool, order_id: i64,
error_code: i32`). -/
structure OrderResult where
  success : Bool
  order_id : Int
  error_code : Int
deriving DecidableEq

/-- Response normalization of `place_order`'s `handle_resp` closure:
an `error` member wins, then `result.orderId`, then the malformed
marker -9998. -/
def placeHandleResp (resp : Json) : OrderResult :=
  match resp.get "error" with
  | some error =>
    { success := false
      order_id := -1
      error_code := toI32 (((error.index "code").asI64).getD (-1)) }
  | none =>
    match ((resp.index "result").index "orderId").asI64 with
    | some orderId => { success := true, order_id := orderId, error_code := 0 }
    | none => { success := false, order_id := -1, error_code := -9998 }

/-- Response normalization of `cancel_order`'s callback closure: an
`error` member yields a failure; any other response is reported as
success carrying the requested order id. -/
def cancelHandleResp (order_id : Int) (resp : Json) : OrderResult :=
  if (resp.get "error").isSome then
    { success := false
      order_id := -1
      error_code := toI32 ((((resp.index "error").index "code").asI64).getD (-1)) }
  else
    { success := true, order_id := order_id, error_code := 0 }

-- ═══════════════════════════════════════════════════════════════════
-- f64 values and `str::parse::<f64>` (used by both ingestion paths)
-- ═══════════════════════════════════════════════════════════════════

/-- An f64 value at the precision the claims need: finite values are
kept as exact rationals (no claim depends on binary64 rounding), plus
the non-finite points Rust's parser can produce. -/
inductive FVal where
  | finite : ℚ → FVal
  | inf : Bool → FVal
  | nan : FVal
deriving DecidableEq

/-- The f64 zero the `unwrap_or(0.0)` fallbacks produce. -/
def FVal.zero : FVal := .finite 0

/-- Negation of an f64 value. -/
def FVal.neg : FVal → FVal
  | .finite q => .finite (-q)
  | .inf b => .inf (!b)
  | .nan => .nan

/-- Unsigned decimal mantissa: `Digits [. Digits?]` or `. Digits`,
returning the exact value and the remaining input. -/
def parseMantissa (cs : List Char) : Option (ℚ × List Char) :=
  let ip := takeDigits cs
  match ip.2 with
  | '.' :: r2 =>
    let fp := takeDigits r2
    if ip.1.isEmpty && fp.1.isEmpty then none
    else
      some ((natOfDigits ip.1 : ℚ) + (natOfDigits fp.1 : ℚ) / 10 ^ fp.1.length, fp.2)
  | _ => if ip.1.isEmpty then none else some ((natOfDigits ip.1 : ℚ), ip.2)

/-- Optional decimal exponent: `(e|E) [+-]? Digits`, or nothing. -/
def parseExponent (cs : List Char) : Option (Int × List Char) :=
  match cs with
  | 'e' :: r | 'E' :: r =>
    let signed : Bool × List Char :=
      match r with
      | '-' :: r2 => (true, r2)
      | '+' :: r2 => (false, r2)
      | _ => (false, r)
    let ds := takeDigits signed.2
    if ds.1.isEmpty then none
    else some (if signed.1 then -(natOfDigits ds.1 : Int) else (natOfDigits ds.1 : Int), ds.2)
  | _ => some (0, cs)

/-- Scale a rational by a signed power of ten. -/
def scalePow10 (q : ℚ) (e : Int) : ℚ := q * 10 ^ e

/-- Rust's `str::parse::<f64>` modelled exactly: optional sign, then a
finite decimal literal with optional exponent, or one of the
case-insensitive non-finite spellings. Finite values are returned as
exact rationals rather than rounded to binary64; none of the claims
distinguish a value from its rounding. -/
def parseF64 (s : String) : Option FVal :=
  let signed : Bool × List Char :=
    match s.data with
    | '-' :: r => (true, r)
    | '+' :: r => (false, r)
    | r => (false, r)
  let low := signed.2.map Char.toLower
  if low = ['i', 'n', 'f'] || low = ['i', 'n', 'f', 'i', 'n', 'i', 't', 'y'] then
    some (.inf signed.1)
  else if low = ['n', 'a', 'n'] then
    some .nan
  else
    match parseMantissa signed.2 with
    | none => none
    | some m =>
      match parseExponent m.2 with
      | none => none
      | some e =>
        if e.2.isEmpty then
          some (.finite (scalePow10 (if signed.1 then -m.1 else m.1) e.1))
        else none

/-- The `parse().unwrap_or(0.0)` idiom shared by both ingestion paths
(`parse_f64` in src/user_data/parser.rs and the inline uses in
src/exchange_data.rs). -/
def parseF64OrZero (s : String) : FVal :=
  (parseF64 s).getD FVal.zero

-- ═══════════════════════════════════════════════════════════════════
-- src/exchange_trade.rs — outbound payload construction
-- ═══════════════════════════════════════════════════════════════════

/-- The `ryu::Buffer::format` output for a finite f64, modelled on the
literal's shortest round-trip decimal form (sign, significant digits,
number of fraction digits). ryu prints exactly that shortest form and,
unlike `Display`, always keeps a fractional part, so an integral value
gains a trailing ".0" (`serde_json`, which formats floats through the
same ryu code, serializes `100.0_f64` as `"100.0"`). Magnitudes that
ryu would print in exponent notation are outside the model; the claims
use 100 and 0.1. -/
def ryuFormat (neg : Bool) (digits fracLen : Nat) : String :=
  let ds := (Nat.repr digits).data
  let core : List Char :=
    if fracLen = 0 then ds ++ ['.', '0']
    else if ds.length ≤ fracLen then
      '0' :: '.' :: (List.replicate (fracLen - ds.length) '0' ++ ds)
    else ds.take (ds.length - fracLen) ++ '.' :: ds.drop (ds.length - fracLen)
  String.mk (if neg then '-' :: core else core)

/-- Byte-lexicographic strict order on char lists; on the ASCII keys
used here it coincides with the `Ord` instance of `&str` that orders a
`BTreeMap`. -/
def charListLt : List Char → List Char → Bool
  | [], [] => false
  | [], _ :: _ => true
  | _ :: _, [] => false
  | a :: as, b :: bs =>
    if a.toNat < b.toNat then true
    else if b.toNat < a.toNat then false
    else charListLt as bs

/-- Byte-lexicographic strict order on strings. -/
def strLt (a b : String) : Bool := charListLt a.data b.data

/-- Ordered insertion into a `BTreeMap<&str, String>` viewed as a
sorted association list. -/
def btreeInsert (k v : String) : List (String × String) → List (String × String)
  | [] => [(k, v)]
  | kv :: rest =>
    if strLt k kv.1 then (k, v) :: kv :: rest
    else if k = kv.1 then (k, v) :: rest
    else kv :: btreeInsert k v rest

/-- The parameter map built for `Command::SendLimitOrder` in
`build_message_for_cmd`, insertion for insertion. -/
def limitOrderParams (api_key price_str qty_str side symbol ts : String) :
    List (String × String) :=
  let p : List (String × String) := []
  let p := btreeInsert "apiKey" api_key p
  let p := btreeInsert "positionSide" "BOTH" p
  let p := btreeInsert "price" price_str p
  let p := btreeInsert "quantity" qty_str p
  let p := btreeInsert "recvWindow" "5000" p
  let p := btreeInsert "side" (asciiUpper side) p
  let p := btreeInsert "symbol" (asciiUpper symbol) p
  let p := btreeInsert "timeInForce" "GTC" p
  let p := btreeInsert "timestamp" ts p
  btreeInsert "type" "LIMIT" p

/-- The parameter map built for `Command::CancelLimitOrder`. -/
def cancelOrderParams (api_key order_id symbol ts : String) :
    List (String × String) :=
  let p : List (String × String) := []
  let p := btreeInsert "apiKey" api_key p
  let p := btreeInsert "orderId" order_id p
  let p := btreeInsert "recvWindow" "5000" p
  let p := btreeInsert "symbol" (asciiUpper symbol) p
  btreeInsert "timestamp" ts p

/-- The signed query string: `k=v` pairs in map iteration order,
joined by `&`, exactly `p.iter().map(|(k, v)| format!("{k}={v}")).join("&")`. -/
def canonicalQuery (p : List (String × String)) : String :=
  String.intercalate "&" (p.map (fun kv => kv.1 ++ "=" ++ kv.2))

/-- The hex HMAC-SHA-256 signature over the canonical query. -/
def querySignature (secret_key query : String) : String :=
  hexEncode (hmacSha256 (asciiBytes secret_key) (asciiBytes query))

/-- Leaf values of the serialized `params` JSON object: strings, and
the JSON numbers produced by `Number::from_f64` (kept in the same
shortest-decimal form ryu gives them when serialized). -/
inductive PVal where
  | pstr : String → PVal
  | pnum : Bool → Nat → Nat → PVal

/-- The outbound wire envelope `{id, method, params}`. -/
structure WireMessage where
  id : String
  method : String
  params : List (String × PVal)

/-- The adjusted timestamp string: local milliseconds plus the
ClockSync offset, rendered in decimal. -/
def adjustedTs (local_time_ms offset : Int) : String :=
  (local_time_ms + offset).repr

/-- The limit-order wire message built by `build_message_for_cmd` for
`Command::SendLimitOrder`: the canonical query is signed and the
signature is appended to the params of the `order.place` envelope.
The f64 `price` and `qty` arrive as shortest-decimal literals
(sign, digits, fraction length) and are formatted by ryu for the
query and by `Number::from_f64` for the JSON body. -/
def buildLimitOrderMessage (id api_key secret_key symbol : String)
    (priceNeg : Bool) (priceDigits priceFrac : Nat)
    (qtyNeg : Bool) (qtyDigits qtyFrac : Nat)
    (side ts : String) : WireMessage :=
  let price_str := ryuFormat priceNeg priceDigits priceFrac
  let qty_str := ryuFormat qtyNeg qtyDigits qtyFrac
  let p := limitOrderParams api_key price_str qty_str side symbol ts
  let signature := querySignature secret_key (canonicalQuery p)
  { id := id
    method := "order.place"
    params :=
      [("apiKey", .pstr api_key),
       ("positionSide", .pstr "BOTH"),
       ("price", .pnum priceNeg priceDigits priceFrac),
       ("quantity", .pnum qtyNeg qtyDigits qtyFrac),
       ("recvWindow", .pstr "5000"),
       ("side", .pstr (asciiUpper side)),
       ("symbol", .pstr (asciiUpper symbol)),
       ("timeInForce", .pstr "GTC"),
       ("timestamp", .pstr ts),
       ("type", .pstr "LIMIT"),
       ("signature", .pstr signature)] }

-- ═══════════════════════════════════════════════════════════════════
-- src/exchange_trade.rs — request correlation as a transition system
-- ═══════════════════════════════════════════════════════════════════

/-- Wire form of a request id: `next_id` produces `req-{n}`. -/
def reqIdStr (n : Nat) : String := "req-" ++ Nat.repr n

/-- Recover `n` from a wire id of the form `req-{n}` (no leading
zeros, as `next_id` never emits them). Ids are modelled by the `n`
inside `req-{n}`; a wire id of any other shape can never equal a
pending-map key, which is what `none` encodes. -/
def parseReqId (s : String) : Option Nat :=
  match s.data with
  | 'r' :: 'e' :: 'q' :: '-' :: rest =>
    let p := takeDigits rest
    match p.1, p.2 with
    | [], _ => none
    | _, _ :: _ => none
    | 0 :: _ :: _, _ => none
    | ds, [] => some (natOfDigits ds)
  | _ => none

/-- The id `handle_text` extracts from an inbound frame
(`extract_id`): a string id is used as-is; a numeric wire id is
rendered decimal, which never collides with a `req-` key, so it is
modelled as no match. -/
def extractId (v : Json) : Option Nat :=
  match v.get "id" with
  | some (.str s) => parseReqId s
  | _ => none

/-- The synthetic payload delivered by `fail_inflight_on_disconnect`. -/
def disconnectPayload (id : Nat) : Json :=
  .obj [("id", .str (reqIdStr id)),
        ("error", .obj [("code", .str "Disconnected"),
                        ("message", .str "Connection closed")])]

/-- TradeGate correlation state. `pending` is the callback map keyed
by request id, `inflight_ids` the DashSet of written-and-unanswered
ids, `backlog` and `outq` the payload queues (payloads identified by
their ids), `counter` the id counter. `written` is a history
variable recording every id whose socket write returned `Ok`, and
`calls` the sequence of callback invocations with the payload each
one was given. -/
structure GateState where
  pending : List Nat
  inflight_ids : List Nat
  backlog : List Nat
  outq : List Nat
  connected : Bool
  counter : Nat
  written : List Nat
  calls : List (Nat × Json)

/-- The idle initial state: `ExchangeTrade::new` starts disconnected
with counter 0 and every container empty. -/
def gateInit : GateState :=
  { pending := [], inflight_ids := [], backlog := [], outq := []
    connected := false, counter := 0, written := [], calls := [] }

/-- Events driving the TradeGate loop. `accept` is `send_command`
(register the callback, enqueue the payload), `connectOk` a successful
`connect_async`, `writeNext ok` one socket write of the next payload
(backlog first, as the reconnect drain runs before the normal loop)
with outcome `ok`, `recvText v` one inbound text frame, and
`readerClosed` the reader terminating on a close frame, read error or
end of stream. -/
inductive GateAct where
  | accept : GateAct
  | connectOk : GateAct
  | writeNext : Bool → GateAct
  | recvText : Json → GateAct
  | readerClosed : GateAct

/-- The disconnect sweep `fail_inflight_on_disconnect`: every inflight
id is removed; each one still in the pending map has its callback
invoked with the synthetic disconnect payload. -/
def gateSweep (s : GateState) : GateState :=
  { s with
    inflight_ids := []
    pending := s.pending.filter (fun id => !(s.inflight_ids.contains id))
    calls := s.calls ++
      (s.inflight_ids.filter (fun id => s.pending.contains id)).map
        (fun id => (id, disconnectPayload id)) }

/-- One step of the TradeGate loop. A failed write pushes the payload
back onto the backlog front, exits the connected loop and runs the
disconnect sweep, exactly as `run_socket` does before reconnecting. -/
def gateStep (s : GateState) : GateAct → GateState
  | .accept =>
    let id := s.counter + 1
    { s with counter := id, pending := s.pending.insert id, outq := s.outq ++ [id] }
  | .connectOk => if s.connected then s else { s with connected := true }
  | .writeNext ok =>
    if s.connected then
      match s.backlog with
      | id :: rest =>
        if ok then
          { s with backlog := rest, inflight_ids := s.inflight_ids.insert id,
                   written := s.written.insert id }
        else gateSweep { s with connected := false }
      | [] =>
        match s.outq with
        | id :: rest =>
          if ok then
            { s with outq := rest, inflight_ids := s.inflight_ids.insert id,
                     written := s.written.insert id }
          else gateSweep { s with outq := rest, backlog := [id], connected := false }
        | [] => s
    else s
  | .recvText v =>
    if s.connected then
      match extractId v with
      | some id =>
        if s.pending.contains id then
          { s with inflight_ids := s.inflight_ids.erase id,
                   pending := s.pending.erase id,
                   calls := s.calls ++ [(id, v)] }
        else { s with inflight_ids := s.inflight_ids.erase id }
      | none => s
    else s
  | .readerClosed =>
    if s.connected then gateSweep { s with connected := false } else s

/-- Run the TradeGate loop over an event sequence. -/
def gateRun (acts : List GateAct) : GateState :=
  acts.foldl gateStep gateInit

/-- Ids of the callback invocations made so far. -/
def callIds (s : GateState) : List Nat := s.calls.map Prod.fst

-- ═══════════════════════════════════════════════════════════════════
-- src/exchange_data.rs — MarketFeed
-- ═══════════════════════════════════════════════════════════════════

/-- MarketFeed commands. -/
inductive MFCommand where
  | subscribeBookticker : String → MFCommand
  | unsubscribeBookticker : String → MFCommand
  | subscribeTrades : String → MFCommand
  | unsubscribeTrades : String → MFCommand
  | listSubscriptions : MFCommand
deriving DecidableEq

/-- Outcome of one `timeout(5s, read.next())` call in the MarketFeed
reader loop. `timedOut` is the `Err(_)` arm; `otherFrame` covers the
binary/ping/pong arms that fall to the catch-all. -/
inductive ReadOutcome where
  | textFrame : String → ReadOutcome
  | closeFrame : ReadOutcome
  | readError : ReadOutcome
  | streamEnded : ReadOutcome
  | timedOut : ReadOutcome
  | otherFrame : ReadOutcome
deriving DecidableEq

/-- State of the MarketFeed reader task: whether its loop is still
running and the commands it has injected into the command queue. -/
structure MFReaderState where
  alive : Bool
  injected : List MFCommand
deriving DecidableEq

/-- The reader task before its first frame. -/
def mfReaderInit : MFReaderState := { alive := true, injected := [] }

/-- One iteration of the MarketFeed reader loop (src/exchange_data.rs,
`run_socket`): text frames are handled, close/error/stream-end break
the loop, and a read timeout injects a `ListSubscriptions` keepalive —
breaking only if the command channel itself has closed
(`cmd_tx.send(..).is_err()`). -/
def mfReaderStep (cmdChannelUp : Bool) (st : MFReaderState) (o : ReadOutcome) :
    MFReaderState :=
  if !st.alive then st
  else
    match o with
    | .textFrame _ => st
    | .closeFrame => { st with alive := false }
    | .readError => { st with alive := false }
    | .streamEnded => { st with alive := false }
    | .timedOut =>
      if cmdChannelUp then
        { st with injected := st.injected ++ [MFCommand.listSubscriptions] }
      else { st with alive := false }
    | .otherFrame => st

/-- Run the reader loop over a sequence of read outcomes. -/
def mfReaderRun (cmdChannelUp : Bool) (os : List ReadOutcome) : MFReaderState :=
  os.foldl (mfReaderStep cmdChannelUp) mfReaderInit

/-- The read timeout of the MarketFeed reader, in seconds. -/
def mfReadTimeoutSecs : Nat := 5

/-- Raw view of a `bookTicker` frame after JSON deserialization: the
numeric fields arrive as strings. -/
structure RawBookTicker where
  symbol : String
  bid_price : String
  ask_price : String
  bid_qty : String
  ask_qty : String
  time : Int

/-- Raw view of a `trade` frame. -/
structure RawTrade where
  symbol : String
  price : String
  qty : String
  is_maker : Bool
  time : Int

/-- A fixed byte buffer with an explicit length, the `[u8; N]` plus
`len` pattern of the C event records: `bytes` is the full buffer,
zero-padded past `len`. -/
structure FixedBuf (N : Nat) where
  bytes : List Nat
  len : Nat
deriving DecidableEq

/-- The MarketFeed symbol copy (src/exchange_data.rs lines 174-177 and
212-215): a 16-byte buffer but at most the first 15 bytes of the
symbol, `len = bytes.len().min(15)`. -/
def mfCopySymbol (sym : List Nat) : FixedBuf 16 :=
  let len := min sym.length 15
  { bytes := sym.take len ++ List.replicate (16 - len) 0, len := len }

/-- The `CBookTicker` record as filled by `handle_text`. -/
structure CBookTicker where
  symbol : FixedBuf 16
  bid_price : FVal
  ask_price : FVal
  bid_qty : FVal
  ask_qty : FVal
  time : Int
deriving DecidableEq

/-- The `CTrade` record as filled by `handle_text`. -/
structure CTrade where
  symbol : FixedBuf 16
  price : FVal
  qty : FVal
  time : Int
deriving DecidableEq

/-- Conversion of a parsed `bookTicker` frame into the C event payload
(src/exchange_data.rs lines 170-206): each numeric string parses with
`unwrap_or(0.0)`. -/
def mfBookTickerEvent (bt : RawBookTicker) : CBookTicker :=
  { symbol := mfCopySymbol (asciiBytes bt.symbol)
    bid_price := parseF64OrZero bt.bid_price
    ask_price := parseF64OrZero bt.ask_price
    bid_qty := parseF64OrZero bt.bid_qty
    ask_qty := parseF64OrZero bt.ask_qty
    time := bt.time }

/-- Conversion of a parsed `trade` frame (src/exchange_data.rs lines
209-251): quantity is negated when the buyer is the maker. -/
def mfTradeEvent (t : RawTrade) : CTrade :=
  let qty := parseF64OrZero t.qty
  { symbol := mfCopySymbol (asciiBytes t.symbol)
    price := parseF64OrZero t.price
    qty := if t.is_maker then qty.neg else qty
    time := t.time }

/-- What one text frame produces on the event bus. The frame has been
classified by substring sniffing and, when it matched, deserialized;
`bookFrame`/`tradeFrame` carry the parsed raw view, `badFrame` is a
frame whose JSON deserialization failed, `unmatchedFrame` matched
neither substring. -/
inductive MFFrame where
  | bookFrame : RawBookTicker → MFFrame
  | tradeFrame : RawTrade → MFFrame
  | badFrame : MFFrame
  | unmatchedFrame : MFFrame

/-- Market event published for a classified frame: parse errors and
unmatched frames publish nothing, everything else always publishes. -/
def mfHandleFrame : MFFrame → Option (CBookTicker ⊕ CTrade)
  | .bookFrame bt => some (.inl (mfBookTickerEvent bt))
  | .tradeFrame t => some (.inr (mfTradeEvent t))
  | .badFrame => none
  | .unmatchedFrame => none

-- ═══════════════════════════════════════════════════════════════════
-- src/user_data/parser.rs — user-data frame parsing
-- ═══════════════════════════════════════════════════════════════════

/-- The `copy_str` helper: copy into an `N`-byte buffer, truncating to
the buffer capacity, `len = bytes.len().min(N)`. -/
def copyStr (N : Nat) (src : List Nat) : FixedBuf N :=
  let len := min src.length N
  { bytes := src.take len ++ List.replicate (N - len) 0, len := len }

/-- The `parse_f64` helper: `s.parse().unwrap_or(0.0)`. It is exactly
`parseF64OrZero`; kept under its source name for the user-data path. -/
def parse_f64 (s : String) : FVal := parseF64OrZero s

/-- The `map_reason` table. -/
def map_reason (r : String) : Nat :=
  if r = "DEPOSIT" then 1
  else if r = "WITHDRAW" then 2
  else if r = "ORDER" then 3
  else if r = "FUNDING_FEE" then 4
  else if r = "WITHDRAW_REJECT" then 5
  else if r = "ADJUSTMENT" then 6
  else if r = "INSURANCE_CLEAR" then 7
  else if r = "ADMIN_DEPOSIT" then 8
  else if r = "ADMIN_WITHDRAW" then 9
  else if r = "MARGIN_TRANSFER" then 10
  else if r = "MARGIN_TYPE_CHANGE" then 11
  else if r = "ASSET_TRANSFER" then 12
  else if r = "OPTIONS_PREMIUM_FEE" then 13
  else if r = "OPTIONS_SETTLE_PROFIT" then 14
  else if r = "AUTO_EXCHANGE" then 15
  else 0

/-- Raw order data of an `ORDER_TRADE_UPDATE` frame. -/
structure RawOrderData where
  symbol : String
  client_id : String
  side : String
  status : String
  order_id : Int
  original_qty : String
  original_price : String
  avg_price : String
  accumulated_qty : String
  commission : Option String
  trade_time : Int

/-- Raw `ORDER_TRADE_UPDATE` event. -/
structure RawOrderEvent where
  event_time : Int
  order : RawOrderData

/-- Raw balance item of an `ACCOUNT_UPDATE` frame. -/
structure RawBalance where
  asset : String
  wallet_balance : String
  cross_wallet_balance : String
  balance_change : String

/-- Raw `ACCOUNT_UPDATE` event. -/
structure RawAccountEvent where
  event_time : Int
  reason : String
  balances : List RawBalance

/-- The `COrderUpdate` C record. -/
structure COrderUpdate where
  symbol : FixedBuf 16
  client_order_id : FixedBuf 32
  order_id : Int
  price : FVal
  qty : FVal
  avg_price : FVal
  accumulated_qty : FVal
  commission : FVal
  status_char : Nat
  side_char : Nat
  event_time : Int
  trade_time : Int
deriving DecidableEq

/-- One `CBalanceItem` of the fixed 10-slot array. -/
structure CBalanceItem where
  asset : FixedBuf 8
  wallet_balance : FVal
  cross_wallet_balance : FVal
  balance_change : FVal
deriving DecidableEq

/-- The zeroed balance slot the array is initialized with. -/
def emptyBalanceItem : CBalanceItem :=
  { asset := { bytes := List.replicate 8 0, len := 0 }
    wallet_balance := FVal.zero
    cross_wallet_balance := FVal.zero
    balance_change := FVal.zero }

/-- The `CAccountUpdate` C record; `balances` models the fixed
`[CBalanceItem; 10]` array, so it always has 10 slots. -/
structure CAccountUpdate where
  event_time : Int
  reason_code : Nat
  balances_count : Nat
  balances : List CBalanceItem
deriving DecidableEq

/-- Conversion of one raw balance into a `CBalanceItem`. -/
def convBalance (b : RawBalance) : CBalanceItem :=
  { asset := copyStr 8 (asciiBytes b.asset)
    wallet_balance := parse_f64 b.wallet_balance
    cross_wallet_balance := parse_f64 b.cross_wallet_balance
    balance_change := parse_f64 b.balance_change }

/-- The `parse_order` function, from the deserialized raw view on
(`simd_serde::from_slice .ok()?` is the deserialization stage; a frame
that fails it yields `None` one level up). Status and side collapse to
their first byte, `'?'` when empty; a missing commission becomes 0.0. -/
def parse_order (raw : RawOrderEvent) : COrderUpdate :=
  { symbol := copyStr 16 (asciiBytes raw.order.symbol)
    client_order_id := copyStr 32 (asciiBytes raw.order.client_id)
    order_id := raw.order.order_id
    price := parse_f64 raw.order.original_price
    qty := parse_f64 raw.order.original_qty
    avg_price := parse_f64 raw.order.avg_price
    accumulated_qty := parse_f64 raw.order.accumulated_qty
    commission := ((raw.order.commission.map parse_f64).getD FVal.zero)
    status_char := ((asciiBytes raw.order.status).head?).getD ('?'.toNat)
    side_char := ((asciiBytes raw.order.side).head?).getD ('?'.toNat)
    event_time := raw.event_time
    trade_time := raw.order.trade_time }

/-- The `parse_account` function, from the deserialized raw view on:
an empty balances array produces no event at all; otherwise the first
`min(len, 10)` items fill the fixed array and `balances_count` is that
count. -/
def parse_account (raw : RawAccountEvent) : Option CAccountUpdate :=
  if raw.balances.isEmpty then none
  else
    let count := min raw.balances.length 10
    some
      { event_time := raw.event_time
        reason_code := map_reason raw.reason
        balances_count := count
        balances :=
          (raw.balances.take 10).map convBalance ++
            List.replicate (10 - count) emptyBalanceItem }

-- ═══════════════════════════════════════════════════════════════════
-- src/user_data/manager.rs and src/strategies/manager.rs — supervisor
-- ═══════════════════════════════════════════════════════════════════

/-- The `hash_key` credential hash: the first 16 hex characters of
SHA-256 of the api key. -/
def hash_key (api_key : String) : String :=
  String.mk ((hexEncode (sha256 (asciiBytes api_key))).data.take 16)

/-- `UserDataManager::subscribe`: a fresh broadcast receiver when a
stream for the credential hash exists, `None` otherwise. The registry
is the key set of the `streams` map; the receiver is identified by the
hash it subscribes to. -/
def udSubscribe (streams : List String) (api_key : String) : Option String :=
  if streams.contains (hash_key api_key) then some (hash_key api_key) else none

/-- The async tasks spawned by `StrategyRunner::start` that feed the
instance's bounded sync queue. The source spawns exactly one
`bridge_loop` task, on a market-event bus subscription
(`RunningInstance` has the single `bridge_task` field). -/
inductive BridgeSource where
  | market : BridgeSource
  | user : BridgeSource
deriving DecidableEq

/-- What `StrategyRunner::start` sets up for an accepted instance:
its id, whether a user-data receiver was obtained, whether that
receiver is handed to the plugin inside `StrategyConfig`
(`user_data_rx` pointer non-null), the bridge tasks feeding the sync
queue, and the sync-queue capacity. -/
structure StartResult where
  instance_id : String
  has_user_data : Bool
  user_data_in_config : Bool
  bridgeTasks : List BridgeSource
  queue_capacity : Nat
deriving DecidableEq

/-- The pure setup logic of `StrategyRunner::start`
(src/strategies/manager.rs lines 144-253): compute the instance id,
reject duplicates, look up a user-data subscription when `params`
carries an `api_key`, create the bounded(8192) sync queue, spawn the
single market `bridge_task`, and pass the optional user-data receiver
to the plugin through the config record. -/
def startSetup (instances streams : List String) (strategy_id symbol : String)
    (params : Json) : Except String StartResult :=
  let instance_id := strategy_id ++ ":" ++ asciiUpper symbol
  if instances.contains instance_id then
    .error ("Instance already running")
  else
    let user_data_rx := ((params.get "api_key").bind Json.asStr).bind (udSubscribe streams)
    .ok
      { instance_id := instance_id
        has_user_data := user_data_rx.isSome
        user_data_in_config := user_data_rx.isSome
        bridgeTasks := [BridgeSource.market]
        queue_capacity := 8192 }

/-- The at-least-once half of the OrderGateway callback contract as
the spec states it, at trace granularity: once a disconnect sweep has
completed, every request accepted so far (ids 1 through the counter)
has had its callback invoked, the venue response or the sweep having
delivered it. -/
def sweepDeliversAll (acts : List GateAct) : Prop :=
  ∀ id, 1 ≤ id → id ≤ (gateRun acts).counter → id ∈ callIds (gateRun acts)

-- ═══════════════════════════════════════════════════════════════════
-- TradeGate invariants
-- ═══════════════════════════════════════════════════════════════════

/-- Structural invariant of the TradeGate correlation state, ignoring
the connection flag: ids are bounded by the counter, each container is
duplicate-free, an id called back is gone from the pending map, an
inflight id is out of both queues and was written, and a queued or
backlogged id was never written. -/
structure GateCore (s : GateState) : Prop where
  bound_pending : ∀ id ∈ s.pending, id ≤ s.counter
  bound_inflight : ∀ id ∈ s.inflight_ids, id ≤ s.counter
  bound_backlog : ∀ id ∈ s.backlog, id ≤ s.counter
  bound_outq : ∀ id ∈ s.outq, id ≤ s.counter
  bound_written : ∀ id ∈ s.written, id ≤ s.counter
  bound_calls : ∀ id ∈ callIds s, id ≤ s.counter
  pending_nodup : s.pending.Nodup
  inflight_nodup : s.inflight_ids.Nodup
  queue_nodup : (s.backlog ++ s.outq).Nodup
  calls_nodup : (callIds s).Nodup
  calls_pending : ∀ id ∈ callIds s, id ∉ s.pending
  inflight_backlog : ∀ id ∈ s.inflight_ids, id ∉ s.backlog
  inflight_outq : ∀ id ∈ s.inflight_ids, id ∉ s.outq
  inflight_written : ∀ id ∈ s.inflight_ids, id ∈ s.written
  written_backlog : ∀ id ∈ s.written, id ∉ s.backlog
  written_outq : ∀ id ∈ s.written, id ∉ s.outq

/-- Full invariant: the core, plus emptiness of the inflight set while
disconnected (the disconnect sweep always drains it). -/
def GateInv (s : GateState) : Prop :=
  GateCore s ∧ (s.connected = false → s.inflight_ids = [])


/-- Convert a `contains` check to membership. -/
theorem mem_of_contains_eq {α : Type} [BEq α] [LawfulBEq α] {l : List α} {a : α}
    (h : l.contains a = true) : a ∈ l := List.elem_iff.mp h

/-- Convert membership to a `contains` check. -/
theorem contains_eq_of_mem {α : Type} [BEq α] [LawfulBEq α] {l : List α} {a : α}
    (h : a ∈ l) : l.contains a = true := List.elem_iff.mpr h

/-- A `contains` check fails exactly off the list. -/
theorem contains_eq_false_of_not_mem {α : Type} [BEq α] [LawfulBEq α] {l : List α}
    {a : α} (h : a ∉ l) : l.contains a = false := by
  by_contra hne
  exact h (mem_of_contains_eq (by simpa using hne))

/-- Ids of the sweep's callback batch. -/
theorem callIds_gateSweep (s : GateState) :
    callIds (gateSweep s) =
      callIds s ++ s.inflight_ids.filter (fun id => s.pending.contains id) := by
  simp [callIds, gateSweep, List.map_map, Function.comp_def]

/-- The initial state satisfies the invariant. -/
theorem gateInv_init : GateInv gateInit := by
  refine ⟨⟨?_, ?_, ?_, ?_, ?_, ?_, ?_, ?_, ?_, ?_, ?_, ?_, ?_, ?_, ?_, ?_⟩, ?_⟩ <;>
    simp [gateInit, callIds]

/-- The disconnect sweep preserves the core invariant. -/
theorem gateCore_sweep {s : GateState} (h : GateCore s) : GateCore (gateSweep s) := by
  have hpend : ∀ x, x ∈ (gateSweep s).pending ↔ x ∈ s.pending ∧ x ∉ s.inflight_ids := by
    intro x
    simp [gateSweep, List.mem_filter, List.elem_iff]
  have hcalls := callIds_gateSweep s
  have hbatch : ∀ x, x ∈ s.inflight_ids.filter (fun id => s.pending.contains id) ↔
      x ∈ s.inflight_ids ∧ x ∈ s.pending := by
    intro x
    simp [List.mem_filter, List.elem_iff]
  refine ⟨?_, ?_, ?_, ?_, ?_, ?_, ?_, ?_, ?_, ?_, ?_, ?_, ?_, ?_, ?_, ?_⟩
  · intro id hid
    exact h.bound_pending id ((hpend id).mp hid).1
  · intro id hid
    simp [gateSweep] at hid
  · intro id hid
    exact h.bound_backlog id hid
  · intro id hid
    exact h.bound_outq id hid
  · intro id hid
    exact h.bound_written id hid
  · intro id hid
    rw [hcalls] at hid
    rcases List.mem_append.mp hid with h1 | h1
    · exact h.bound_calls id h1
    · exact h.bound_inflight id ((hbatch id).mp h1).1
  · exact h.pending_nodup.filter _
  · simp [gateSweep]
  · exact h.queue_nodup
  · rw [hcalls]
    rw [List.nodup_append]
    refine ⟨h.calls_nodup, h.inflight_nodup.filter _, ?_⟩
    intro x hx hx2
    exact h.calls_pending x hx ((hbatch x).mp hx2).2
  · intro id hid hid2
    rw [hcalls] at hid
    rw [hpend id] at hid2
    rcases List.mem_append.mp hid with h1 | h1
    · exact h.calls_pending id h1 hid2.1
    · exact hid2.2 ((hbatch id).mp h1).1
  · intro id hid
    simp [gateSweep] at hid
  · intro id hid
    simp [gateSweep] at hid
  · intro id hid
    simp [gateSweep] at hid
  · intro id hid
    exact h.written_backlog id hid
  · intro id hid
    exact h.written_outq id hid

/-- Changing only the connection flag leaves the core invariant. -/
theorem gateCore_connected {s : GateState} (b : Bool) (h : GateCore s) :
    GateCore { s with connected := b } :=
  ⟨h.bound_pending, h.bound_inflight, h.bound_backlog, h.bound_outq,
   h.bound_written, h.bound_calls, h.pending_nodup, h.inflight_nodup,
   h.queue_nodup, h.calls_nodup, h.calls_pending, h.inflight_backlog,
   h.inflight_outq, h.inflight_written, h.written_backlog, h.written_outq⟩

/-- Every TradeGate step preserves the invariant. -/
theorem gateInv_step (s : GateState) (a : GateAct) (h : GateInv s) :
    GateInv (gateStep s a) := by
  obtain ⟨hc, hd⟩ := h
  cases a with
  | accept =>
    have hfp : s.counter + 1 ∉ s.pending := fun hm => by
      have := hc.bound_pending _ hm; omega
    have hfi : s.counter + 1 ∉ s.inflight_ids := fun hm => by
      have := hc.bound_inflight _ hm; omega
    have hfb : s.counter + 1 ∉ s.backlog := fun hm => by
      have := hc.bound_backlog _ hm; omega
    have hfo : s.counter + 1 ∉ s.outq := fun hm => by
      have := hc.bound_outq _ hm; omega
    have hfw : s.counter + 1 ∉ s.written := fun hm => by
      have := hc.bound_written _ hm; omega
    have hfc : s.counter + 1 ∉ callIds s := fun hm => by
      have := hc.bound_calls _ hm; omega
    dsimp only [gateStep]
    refine ⟨⟨?_, ?_, ?_, ?_, ?_, ?_, ?_, ?_, ?_, ?_, ?_, ?_, ?_, ?_, ?_, ?_⟩, ?_⟩ <;> (try dsimp only)
    · intro id hid
      rcases List.mem_insert_iff.mp hid with h1 | h1
      · omega
      · have := hc.bound_pending id h1; omega
    · intro id hid
      have := hc.bound_inflight id hid; omega
    · intro id hid
      have := hc.bound_backlog id hid; omega
    · intro id hid
      rcases List.mem_append.mp hid with h1 | h1
      · have := hc.bound_outq id h1; omega
      · simp at h1; omega
    · intro id hid
      have := hc.bound_written id hid; omega
    · intro id hid
      have := hc.bound_calls id hid; omega
    · exact hc.pending_nodup.insert
    · exact hc.inflight_nodup
    · show (s.backlog ++ (s.outq ++ [s.counter + 1])).Nodup
      rw [← List.append_assoc]
      refine hc.queue_nodup.append (List.nodup_singleton _) ?_
      intro x hx hx2
      simp at hx2
      subst hx2
      rcases List.mem_append.mp hx with h1 | h1
      · exact hfb h1
      · exact hfo h1
    · exact hc.calls_nodup
    · intro id hid hid2
      rcases List.mem_insert_iff.mp hid2 with h1 | h1
      · subst h1; exact hfc hid
      · exact hc.calls_pending id hid h1
    · exact hc.inflight_backlog
    · intro id hid hid2
      rcases List.mem_append.mp hid2 with h1 | h1
      · exact hc.inflight_outq id hid h1
      · simp at h1; subst h1; exact hfi hid
    · exact hc.inflight_written
    · exact hc.written_backlog
    · intro id hid hid2
      rcases List.mem_append.mp hid2 with h1 | h1
      · exact hc.written_outq id hid h1
      · simp at h1; subst h1; exact hfw hid
    · exact hd
  | connectOk =>
    by_cases hcon : s.connected
    · simp only [gateStep, hcon, if_true]
      exact ⟨hc, hd⟩
    · simp only [gateStep, Bool.not_eq_true] at hcon ⊢
      rw [hcon]
      simp only [Bool.false_eq_true, if_false]
      exact ⟨gateCore_connected true hc, fun hfalse => by simp at hfalse⟩
  | writeNext ok =>
    by_cases hcon : s.connected
    · cases hb : s.backlog with
      | cons id rest =>
        have hq : (id :: (rest ++ s.outq)).Nodup := by
          have h2 := hc.queue_nodup
          rw [hb] at h2
          simpa using h2
        rw [List.nodup_cons] at hq
        obtain ⟨hid_nm, hq2⟩ := hq
        have hidb : id ∈ s.backlog := by rw [hb]; exact List.mem_cons_self _ _
        cases ok with
        | true =>
          have hred : gateStep s (.writeNext true) =
              { s with backlog := rest, inflight_ids := s.inflight_ids.insert id,
                       written := s.written.insert id } := by
            simp only [gateStep, hcon, if_true, hb]
          rw [hred]
          refine ⟨⟨?_, ?_, ?_, ?_, ?_, ?_, ?_, ?_, ?_, ?_, ?_, ?_, ?_, ?_, ?_, ?_⟩, ?_⟩
          · exact hc.bound_pending
          · intro x hx
            rcases List.mem_insert_iff.mp hx with h1 | h1
            · subst h1; exact hc.bound_backlog _ hidb
            · exact hc.bound_inflight x h1
          · intro x hx
            exact hc.bound_backlog x (by rw [hb]; exact List.mem_cons_of_mem _ hx)
          · exact hc.bound_outq
          · intro x hx
            rcases List.mem_insert_iff.mp hx with h1 | h1
            · subst h1; exact hc.bound_backlog _ hidb
            · exact hc.bound_written x h1
          · exact hc.bound_calls
          · exact hc.pending_nodup
          · exact hc.inflight_nodup.insert
          · show (rest ++ s.outq).Nodup
            exact hq2
          · exact hc.calls_nodup
          · exact hc.calls_pending
          · intro x hx hx2
            rcases List.mem_insert_iff.mp hx with h1 | h1
            · subst h1
              exact hid_nm (List.mem_append.mpr (Or.inl hx2))
            · exact hc.inflight_backlog x h1 (by rw [hb]; exact List.mem_cons_of_mem _ hx2)
          · intro x hx hx2
            rcases List.mem_insert_iff.mp hx with h1 | h1
            · subst h1
              exact hid_nm (List.mem_append.mpr (Or.inr hx2))
            · exact hc.inflight_outq x h1 hx2
          · intro x hx
            rcases List.mem_insert_iff.mp hx with h1 | h1
            · subst h1; exact List.mem_insert_self _ _
            · exact List.mem_insert_of_mem (hc.inflight_written x h1)
          · intro x hx hx2
            rcases List.mem_insert_iff.mp hx with h1 | h1
            · subst h1
              exact hid_nm (List.mem_append.mpr (Or.inl hx2))
            · exact hc.written_backlog x h1 (by rw [hb]; exact List.mem_cons_of_mem _ hx2)
          · intro x hx hx2
            rcases List.mem_insert_iff.mp hx with h1 | h1
            · subst h1
              exact hid_nm (List.mem_append.mpr (Or.inr hx2))
            · exact hc.written_outq x h1 hx2
          · intro hfalse
            have hf2 : s.connected = false := hfalse
            rw [hcon] at hf2
            cases hf2
        | false =>
          have hred : gateStep s (.writeNext false) =
              gateSweep { s with connected := false } := by
            simp only [gateStep, hcon, if_true, hb, Bool.false_eq_true, if_false]
          rw [hred]
          exact ⟨gateCore_sweep (gateCore_connected false hc), fun _ => rfl⟩
      | nil =>
        cases ho : s.outq with
        | cons id rest =>
          have hq : (id :: rest).Nodup := by
            have h2 := hc.queue_nodup
            rw [hb, ho] at h2
            simpa using h2
          rw [List.nodup_cons] at hq
          obtain ⟨hid_nm, hq2⟩ := hq
          have hido : id ∈ s.outq := by rw [ho]; exact List.mem_cons_self _ _
          cases ok with
          | true =>
            have hred : gateStep s (.writeNext true) =
                { s with outq := rest, inflight_ids := s.inflight_ids.insert id,
                         written := s.written.insert id } := by
              simp only [gateStep, hcon, if_true, hb, ho]
            rw [hred]
            refine ⟨⟨?_, ?_, ?_, ?_, ?_, ?_, ?_, ?_, ?_, ?_, ?_, ?_, ?_, ?_, ?_, ?_⟩, ?_⟩
            · exact hc.bound_pending
            · intro x hx
              rcases List.mem_insert_iff.mp hx with h1 | h1
              · subst h1; exact hc.bound_outq _ hido
              · exact hc.bound_inflight x h1
            · exact hc.bound_backlog
            · intro x hx
              exact hc.bound_outq x (by rw [ho]; exact List.mem_cons_of_mem _ hx)
            · intro x hx
              rcases List.mem_insert_iff.mp hx with h1 | h1
              · subst h1; exact hc.bound_outq _ hido
              · exact hc.bound_written x h1
            · exact hc.bound_calls
            · exact hc.pending_nodup
            · exact hc.inflight_nodup.insert
            · show (s.backlog ++ rest).Nodup
              rw [hb]
              simpa using hq2
            · exact hc.calls_nodup
            · exact hc.calls_pending
            · intro x hx hx2
              have hx3 : x ∈ s.backlog := hx2
              rw [hb] at hx3
              exact absurd hx3 (List.not_mem_nil x)
            · intro x hx hx2
              rcases List.mem_insert_iff.mp hx with h1 | h1
              · subst h1; exact hid_nm hx2
              · exact hc.inflight_outq x h1 (by rw [ho]; exact List.mem_cons_of_mem _ hx2)
            · intro x hx
              rcases List.mem_insert_iff.mp hx with h1 | h1
              · subst h1; exact List.mem_insert_self _ _
              · exact List.mem_insert_of_mem (hc.inflight_written x h1)
            · intro x hx hx2
              have hx3 : x ∈ s.backlog := hx2
              rw [hb] at hx3
              exact absurd hx3 (List.not_mem_nil x)
            · intro x hx hx2
              rcases List.mem_insert_iff.mp hx with h1 | h1
              · subst h1; exact hid_nm hx2
              · exact hc.written_outq x h1 (by rw [ho]; exact List.mem_cons_of_mem _ hx2)
            · intro hfalse
              have hf2 : s.connected = false := hfalse
              rw [hcon] at hf2
              cases hf2
          | false =>
            have hred : gateStep s (.writeNext false) =
                gateSweep { s with outq := rest, backlog := [id], connected := false } := by
              simp only [gateStep, hcon, if_true, hb, ho, Bool.false_eq_true, if_false]
            rw [hred]
            refine ⟨gateCore_sweep ?_, fun _ => rfl⟩
            refine ⟨hc.bound_pending, hc.bound_inflight, ?_, ?_, hc.bound_written,
                    hc.bound_calls, hc.pending_nodup, hc.inflight_nodup, ?_,
                    hc.calls_nodup, hc.calls_pending, ?_, ?_, hc.inflight_written,
                    ?_, ?_⟩
            · intro x hx
              have hx2 : x ∈ [id] := hx
              simp at hx2
              subst hx2
              exact hc.bound_outq _ hido
            · intro x hx
              exact hc.bound_outq x (by rw [ho]; exact List.mem_cons_of_mem _ hx)
            · show ([id] ++ rest).Nodup
              simpa [List.nodup_cons] using And.intro hid_nm hq2
            · intro x hx hx2
              have hx3 : x ∈ [id] := hx2
              simp at hx3
              subst hx3
              exact hc.inflight_outq x hx hido
            · intro x hx hx2
              exact hc.inflight_outq x hx (by rw [ho]; exact List.mem_cons_of_mem _ hx2)
            · intro x hx hx2
              have hx3 : x ∈ [id] := hx2
              simp at hx3
              subst hx3
              exact hc.written_outq x hx hido
            · intro x hx hx2
              exact hc.written_outq x hx (by rw [ho]; exact List.mem_cons_of_mem _ hx2)
        | nil =>
          have hred : gateStep s (.writeNext ok) = s := by
            cases ok <;> simp only [gateStep, hcon, if_true, hb, ho]
          rw [hred]
          exact ⟨hc, hd⟩
    · have hcon2 : s.connected = false := by simpa using hcon
      have hred : gateStep s (.writeNext ok) = s := by
        simp only [gateStep, hcon2, Bool.false_eq_true, if_false]
      rw [hred]
      exact ⟨hc, hd⟩
  | recvText v =>
    by_cases hcon : s.connected
    · cases he : extractId v with
      | none =>
        have hred : gateStep s (.recvText v) = s := by
          simp only [gateStep, hcon, if_true, he]
        rw [hred]
        exact ⟨hc, hd⟩
      | some id =>
        by_cases hp : s.pending.contains id = true
        · have hmem : id ∈ s.pending := mem_of_contains_eq hp
          have hcid : id ∉ callIds s := fun hcm => hc.calls_pending id hcm hmem
          have hred : gateStep s (.recvText v) =
              { s with inflight_ids := s.inflight_ids.erase id,
                       pending := s.pending.erase id,
                       calls := s.calls ++ [(id, v)] } := by
            simp only [gateStep, hcon, if_true, he, hp]
          rw [hred]
          have hcalls2 : callIds { s with inflight_ids := s.inflight_ids.erase id,
                                          pending := s.pending.erase id,
                                          calls := s.calls ++ [(id, v)] } =
              callIds s ++ [id] := by
            simp [callIds]
          refine ⟨⟨?_, ?_, ?_, ?_, ?_, ?_, ?_, ?_, ?_, ?_, ?_, ?_, ?_, ?_, ?_, ?_⟩, ?_⟩
          · intro x hx
            exact hc.bound_pending x (List.mem_of_mem_erase hx)
          · intro x hx
            exact hc.bound_inflight x (List.mem_of_mem_erase hx)
          · exact hc.bound_backlog
          · exact hc.bound_outq
          · exact hc.bound_written
          · intro x hx
            rw [hcalls2] at hx
            rcases List.mem_append.mp hx with h1 | h1
            · exact hc.bound_calls x h1
            · simp at h1
              subst h1
              exact hc.bound_pending _ hmem
          · exact hc.pending_nodup.erase _
          · exact hc.inflight_nodup.erase _
          · exact hc.queue_nodup
          · rw [hcalls2]
            refine hc.calls_nodup.append (List.nodup_singleton _) ?_
            intro x hx hx2
            simp at hx2
            subst hx2
            exact hcid hx
          · intro x hx hx2
            rw [hcalls2] at hx
            have hx3 := (hc.pending_nodup.mem_erase_iff).mp hx2
            rcases List.mem_append.mp hx with h1 | h1
            · exact hc.calls_pending x h1 hx3.2
            · simp at h1
              subst h1
              exact hx3.1 rfl
          · intro x hx
            exact hc.inflight_backlog x (List.mem_of_mem_erase hx)
          · intro x hx
            exact hc.inflight_outq x (List.mem_of_mem_erase hx)
          · intro x hx
            exact hc.inflight_written x (List.mem_of_mem_erase hx)
          · exact hc.written_backlog
          · exact hc.written_outq
          · intro hfalse
            have hf2 : s.connected = false := hfalse
            rw [hcon] at hf2
            cases hf2
        · have hp2 : s.pending.contains id = false := by simpa using hp
          have hred : gateStep s (.recvText v) =
              { s with inflight_ids := s.inflight_ids.erase id } := by
            simp only [gateStep, hcon, if_true, he, hp2, Bool.false_eq_true, if_false]
          rw [hred]
          refine ⟨⟨hc.bound_pending, ?_, hc.bound_backlog, hc.bound_outq,
                   hc.bound_written, hc.bound_calls, hc.pending_nodup,
                   hc.inflight_nodup.erase _, hc.queue_nodup, hc.calls_nodup,
                   hc.calls_pending, ?_, ?_, ?_, hc.written_backlog,
                   hc.written_outq⟩, ?_⟩
          · intro x hx
            exact hc.bound_inflight x (List.mem_of_mem_erase hx)
          · intro x hx
            exact hc.inflight_backlog x (List.mem_of_mem_erase hx)
          · intro x hx
            exact hc.inflight_outq x (List.mem_of_mem_erase hx)
          · intro x hx
            exact hc.inflight_written x (List.mem_of_mem_erase hx)
          · intro hfalse
            have hf2 : s.connected = false := hfalse
            rw [hcon] at hf2
            cases hf2
    · have hcon2 : s.connected = false := by simpa using hcon
      have hred : gateStep s (.recvText v) = s := by
        simp only [gateStep, hcon2, Bool.false_eq_true, if_false]
      rw [hred]
      exact ⟨hc, hd⟩
  | readerClosed =>
    by_cases hcon : s.connected
    · have hred : gateStep s .readerClosed = gateSweep { s with connected := false } := by
        simp only [gateStep, hcon, if_true]
      rw [hred]
      exact ⟨gateCore_sweep (gateCore_connected false hc), fun _ => rfl⟩
    · have hcon2 : s.connected = false := by simpa using hcon
      have hred : gateStep s .readerClosed = s := by
        simp only [gateStep, hcon2, Bool.false_eq_true, if_false]
      rw [hred]
      exact ⟨hc, hd⟩

/-- Every reachable TradeGate state satisfies the invariant. -/
theorem gateInv_run (acts : List GateAct) : GateInv (gateRun acts) := by
  have h : ∀ s, GateInv s → GateInv (acts.foldl gateStep s) := by
    induction acts with
    | nil => intro s hs; exact hs
    | cons a rest ih =>
      intro s hs
      exact ih _ (gateInv_step s a hs)
  exact h gateInit gateInv_init

-- ═══════════════════════════════════════════════════════════════════
-- Claim theorems: TradeGate / OrderGateway (C1, C4, C5)
-- ═══════════════════════════════════════════════════════════════════

/-- C1 (counterexample): the claim that every accepted request is
called back exactly once by the earlier of the venue response and the
disconnect sweep is false. In the trace connect, accept, failed write,
the accepted request id 1 sits in the backlog when the teardown sweep
completes (the run ends disconnected, so the sweep has run), yet no
callback has ever been invoked: only inflight ids are swept, and the
backlogged request keeps its pending callback. -/
theorem gate_backlogged_callback_missed_by_sweep :
    (gateRun [.connectOk, .accept, .writeNext false]).connected = false ∧
    (gateRun [.connectOk, .accept, .writeNext false]).pending = [1] ∧
    (gateRun [.connectOk, .accept, .writeNext false]).backlog = [1] ∧
    callIds (gateRun [.connectOk, .accept, .writeNext false]) = [] ∧
    ¬ sweepDeliversAll [.connectOk, .accept, .writeNext false] := by
  refine ⟨rfl, rfl, rfl, rfl, ?_⟩
  intro hAll
  have h1 := hAll 1 (by decide) (by decide)
  exact absurd h1 (by decide)

/-- C1 (amended): a registered callback is invoked at most once — the
invocation ids of every reachable trace are duplicate-free, the
pending-map entry being removed on first delivery — and every request
whose payload was written to the socket (member of the inflight set)
and whose callback is still registered is invoked by the disconnect
sweep; requests whose payloads are still queued or backlogged are not
covered by the sweep. -/
theorem gate_callback_at_most_once_and_sweep_covers_inflight :
    (∀ acts : List GateAct, (callIds (gateRun acts)).Nodup) ∧
    (∀ (acts : List GateAct) (id : Nat),
      id ∈ (gateRun acts).inflight_ids → id ∈ (gateRun acts).pending →
      id ∈ callIds (gateStep (gateRun acts) .readerClosed)) := by
  constructor
  · intro acts
    exact (gateInv_run acts).1.calls_nodup
  · intro acts id hin hpend
    have hinv := gateInv_run acts
    have hcon : (gateRun acts).connected = true := by
      by_contra hny
      have h0 : (gateRun acts).connected = false := by simpa using hny
      rw [hinv.2 h0] at hin
      exact absurd hin (List.not_mem_nil id)
    have hred : gateStep (gateRun acts) .readerClosed =
        gateSweep { gateRun acts with connected := false } := by
      simp only [gateStep, hcon, if_true]
    rw [hred, callIds_gateSweep]
    apply List.mem_append.mpr
    right
    apply List.mem_filter.mpr
    exact ⟨hin, contains_eq_of_mem hpend⟩

/-- Witness for the amended C1 theorem at a concrete trace: after
connect, accept, successful write, the id 1 is inflight with a pending
callback, and the teardown sweep invokes it. -/
theorem gate_callback_at_most_once_witness :
    (callIds (gateRun [.connectOk, .accept, .writeNext true])).Nodup ∧
    1 ∈ callIds (gateStep (gateRun [.connectOk, .accept, .writeNext true]) .readerClosed) := by
  exact ⟨gate_callback_at_most_once_and_sweep_covers_inflight.1 _,
         gate_callback_at_most_once_and_sweep_covers_inflight.2
           [.connectOk, .accept, .writeNext true] 1 (by decide) (by decide)⟩

/-- C4: when the connection drops, the teardown sweep empties the
inflight set, invokes the continuation of every inflight id that still
has a pending callback with the synthetic disconnect payload carrying
that id, keeps the backlog (and the outbound queue) untouched, and
leaves the callbacks of non-inflight ids registered in the pending
map. -/
theorem gate_disconnect_sweep_spec :
    ∀ acts : List GateAct,
      (gateRun acts).connected = true →
      (gateStep (gateRun acts) .readerClosed).inflight_ids = [] ∧
      (gateStep (gateRun acts) .readerClosed).backlog = (gateRun acts).backlog ∧
      (gateStep (gateRun acts) .readerClosed).outq = (gateRun acts).outq ∧
      (gateStep (gateRun acts) .readerClosed).connected = false ∧
      (∀ id ∈ (gateRun acts).inflight_ids, id ∈ (gateRun acts).pending →
        (id, disconnectPayload id) ∈ (gateStep (gateRun acts) .readerClosed).calls) ∧
      (∀ id ∈ (gateRun acts).pending, id ∉ (gateRun acts).inflight_ids →
        id ∈ (gateStep (gateRun acts) .readerClosed).pending) ∧
      (∀ id : Nat, (disconnectPayload id).get "id" = some (.str (reqIdStr id)) ∧
        ((disconnectPayload id).index "error").index "code" = .str "Disconnected") := by
  intro acts hcon
  have hred : gateStep (gateRun acts) .readerClosed =
      gateSweep { gateRun acts with connected := false } := by
    simp only [gateStep, hcon, if_true]
  rw [hred]
  refine ⟨rfl, rfl, rfl, rfl, ?_, ?_, ?_⟩
  · intro id hin hpend
    apply List.mem_append.mpr
    right
    apply List.mem_map.mpr
    refine ⟨id, ?_, rfl⟩
    apply List.mem_filter.mpr
    exact ⟨hin, contains_eq_of_mem hpend⟩
  · intro id hpend hnin
    apply List.mem_filter.mpr
    refine ⟨hpend, ?_⟩
    rw [contains_eq_false_of_not_mem hnin]
    rfl
  · intro id
    exact ⟨rfl, rfl⟩

/-- Witness for the C4 sweep theorem: in the trace connect, accept,
successful write, the connection is live, id 1 is inflight, and the
sweep delivers the synthetic payload for id 1 while keeping the empty
backlog. -/
theorem gate_disconnect_sweep_witness :
    (gateStep (gateRun [.connectOk, .accept, .writeNext true]) .readerClosed).inflight_ids = [] ∧
    (1, disconnectPayload 1) ∈
      (gateStep (gateRun [.connectOk, .accept, .writeNext true]) .readerClosed).calls := by
  have h := gate_disconnect_sweep_spec [.connectOk, .accept, .writeNext true] rfl
  exact ⟨h.1, h.2.2.2.2.1 1 (by decide) (by decide)⟩

/-- C5: in every reachable TradeGate state, an id is inflight only if
the socket write of its payload previously returned success, and every
backlogged payload is one whose write never succeeded. -/
theorem gate_inflight_written_backlog_unwritten :
    ∀ acts : List GateAct,
      (∀ id ∈ (gateRun acts).inflight_ids, id ∈ (gateRun acts).written) ∧
      (∀ id ∈ (gateRun acts).backlog, id ∉ (gateRun acts).written) := by
  intro acts
  have hinv := (gateInv_run acts).1
  exact ⟨hinv.inflight_written, fun id hid hw => hinv.written_backlog id hw hid⟩

/-- Witness for the C5 invariant: a successfully written id is
recorded as written, and a backlogged id (its write failed) is not. -/
theorem gate_inflight_written_witness :
    1 ∈ (gateRun [.connectOk, .accept, .writeNext true]).written ∧
    2 ∉ (gateRun [.connectOk, .accept, .accept, .writeNext true, .writeNext false]).written := by
  constructor
  · exact (gate_inflight_written_backlog_unwritten [.connectOk, .accept, .writeNext true]).1
      1 (by decide)
  · exact (gate_inflight_written_backlog_unwritten
      [.connectOk, .accept, .accept, .writeNext true, .writeNext false]).2 2 (by decide)

-- ═══════════════════════════════════════════════════════════════════
-- Claim theorems: PluginSupervisor (C2)
-- ═══════════════════════════════════════════════════════════════════

/-- C2 (counterexample): the claim that `start` spawns a user bridge
mirroring the market bridge when a user-feed subscription exists for
the `api_key` in `params` is false. With credential "k" registered,
the accepted instance reports a user-data attachment, yet the only
bridge task feeding the sync queue is the market one — the user-data
receiver is handed to the plugin inside the config record instead, so
user events do not land on the shared sync queue. -/
theorem supervisor_start_spawns_single_market_bridge :
    startSetup [] [hash_key "k"] "s" "sol" (.obj [("api_key", .str "k")]) =
      .ok { instance_id := "s:SOL", has_user_data := true, user_data_in_config := true,
            bridgeTasks := [.market], queue_capacity := 8192 } ∧
    BridgeSource.user ∉ [BridgeSource.market] := by
  refine ⟨?_, by decide⟩
  show Except.ok _ = _
  simp only [Except.ok.injEq]
  decide

/-- C2 (amended): when `params` carries an `api_key` with a live
user-feed subscription, `start` attaches the user-data receiver to the
plugin through the config record (`has_user_data` set, non-null
`user_data_rx`), spawns only the market bridge to feed the
8192-capacity sync queue, and user events reach the plugin through
that separate receiver rather than the merged queue. -/
theorem supervisor_user_feed_attach_spec :
    ∀ (instances streams : List String) (strategy_id symbol k : String) (params : Json),
      params.get "api_key" = some (.str k) →
      hash_key k ∈ streams →
      (strategy_id ++ ":" ++ asciiUpper symbol) ∉ instances →
      startSetup instances streams strategy_id symbol params =
        .ok { instance_id := strategy_id ++ ":" ++ asciiUpper symbol
              has_user_data := true
              user_data_in_config := true
              bridgeTasks := [.market]
              queue_capacity := 8192 } := by
  intro instances streams strategy_id symbol k params hk hs hninst
  simp [startSetup, hk, Json.asStr, udSubscribe, hninst, hs]

/-- Witness for the amended C2 theorem on a fresh registry holding the
hash of credential "q". -/
theorem supervisor_user_feed_attach_witness :
    startSetup [] [hash_key "q"] "sid" "btcusdt" (.obj [("api_key", .str "q")]) =
      .ok { instance_id := "sid:BTCUSDT", has_user_data := true,
            user_data_in_config := true, bridgeTasks := [.market],
            queue_capacity := 8192 } := by
  have h := supervisor_user_feed_attach_spec [] [hash_key "q"] "sid" "btcusdt" "q"
    (.obj [("api_key", .str "q")]) rfl (List.mem_singleton.mpr rfl)
    (List.not_mem_nil _)
  rw [h]
  simp only [Except.ok.injEq]
  decide

-- ═══════════════════════════════════════════════════════════════════
-- Claim theorems: OrderGateway result normalization (C3)
-- ═══════════════════════════════════════════════════════════════════

/-- C3 (counterexample): the claimed normalization — `success=false`
with `error_code=-9998` when a response has neither `error` nor
`result.orderId` — does not hold on the cancel path: for the malformed
response `{}` routed to a cancel callback for order id 7, the code
reports success with the requested id and error code 0. -/
theorem cancel_malformed_response_reports_success :
    cancelHandleResp 7 (.obj []) =
      { success := true, order_id := 7, error_code := 0 } ∧
    (cancelHandleResp 7 (.obj [])).success ≠ false ∧
    (cancelHandleResp 7 (.obj [])).error_code ≠ -9998 := by
  exact ⟨rfl, by decide, by decide⟩

/-- C3 (amended): an `error` member always takes precedence; on the
place path a response without `error` yields success with the venue
order id when `result.orderId` is an integer and the malformed marker
-9998 otherwise; on the cancel path any response without `error` is
reported as success carrying the requested order id — cancel has no
malformed case. An integer `error.code` within i32 range is surfaced
verbatim. -/
theorem order_result_normalization_spec :
    (∀ (resp err : Json), resp.get "error" = some err →
      placeHandleResp resp =
        { success := false, order_id := -1,
          error_code := toI32 (((err.index "code").asI64).getD (-1)) }) ∧
    (∀ (resp err : Json) (c : Int), resp.get "error" = some err →
      err.get "code" = some (.num c) → -(2 ^ 31) ≤ c → c < 2 ^ 31 →
      placeHandleResp resp = { success := false, order_id := -1, error_code := c }) ∧
    (∀ (resp : Json) (oid : Int), resp.get "error" = none →
      ((resp.index "result").index "orderId").asI64 = some oid →
      placeHandleResp resp = { success := true, order_id := oid, error_code := 0 }) ∧
    (∀ resp : Json, resp.get "error" = none →
      ((resp.index "result").index "orderId").asI64 = none →
      placeHandleResp resp = { success := false, order_id := -1, error_code := -9998 }) ∧
    (∀ (oid : Int) (resp err : Json), resp.get "error" = some err →
      cancelHandleResp oid resp =
        { success := false, order_id := -1,
          error_code := toI32 ((((resp.index "error").index "code").asI64).getD (-1)) }) ∧
    (∀ (oid : Int) (resp : Json), resp.get "error" = none →
      cancelHandleResp oid resp = { success := true, order_id := oid, error_code := 0 }) := by
  refine ⟨?_, ?_, ?_, ?_, ?_, ?_⟩
  · intro resp err h
    simp [placeHandleResp, h]
  · intro resp err c h hcode hlo hhi
    have hidx : err.index "code" = .num c := by simp [Json.index, hcode]
    have hasI : (err.index "code").asI64 = some c := by
      rw [hidx]
      simp only [Json.asI64]
      rw [if_pos ⟨by omega, by omega⟩]
    simp [placeHandleResp, h, hasI, toI32]
    omega
  · intro resp oid h hoid
    simp [placeHandleResp, h, hoid]
  · intro resp h hnone
    simp [placeHandleResp, h, hnone]
  · intro oid resp err h
    simp [cancelHandleResp, h]
  · intro oid resp h
    simp [cancelHandleResp, h]

/-- Witness for the amended C3 theorem: each branch evaluated at a
concrete response. -/
theorem order_result_normalization_witness :
    placeHandleResp (.obj [("error", .obj [("code", .num (-1102))])]) =
      { success := false, order_id := -1, error_code := -1102 } ∧
    placeHandleResp (.obj [("result", .obj [("orderId", .num 42)])]) =
      { success := true, order_id := 42, error_code := 0 } ∧
    placeHandleResp (.obj []) =
      { success := false, order_id := -1, error_code := -9998 } ∧
    cancelHandleResp 7 (.obj [("error", .obj [("code", .num 5)])]) =
      { success := false, order_id := -1, error_code := 5 } ∧
    cancelHandleResp 7 (.obj [("result", .obj [("status", .str "ok")])]) =
      { success := true, order_id := 7, error_code := 0 } := by
  refine ⟨?_, ?_, ?_, ?_, ?_⟩
  · exact order_result_normalization_spec.2.1
      (.obj [("error", .obj [("code", .num (-1102))])])
      (.obj [("code", .num (-1102))]) (-1102) rfl rfl (by decide) (by decide)
  · exact order_result_normalization_spec.2.2.1
      (.obj [("result", .obj [("orderId", .num 42)])]) 42 rfl rfl
  · exact order_result_normalization_spec.2.2.2.1 (.obj []) rfl rfl
  · have h := order_result_normalization_spec.2.2.2.2.1 7
      (.obj [("error", .obj [("code", .num 5)])]) (.obj [("code", .num 5)]) rfl
    rw [h]
    decide
  · exact order_result_normalization_spec.2.2.2.2.2 7
      (.obj [("result", .obj [("status", .str "ok")])]) rfl

-- ═══════════════════════════════════════════════════════════════════
-- Claim theorems: MarketFeed reader liveness (C6)
-- ═══════════════════════════════════════════════════════════════════

/-- C6 (counterexample): the claim that two consecutive read timeouts
without a response make MarketFeed treat the connection as dead is
false: after two consecutive timeouts with nothing read in between the
reader loop is still running, having injected a keepalive for each
timeout; nothing in the loop counts timeouts. -/
theorem market_reader_survives_two_timeouts :
    (mfReaderRun true [.timedOut, .timedOut]).alive = true ∧
    (mfReaderRun true [.timedOut, .timedOut]).injected =
      [MFCommand.listSubscriptions, MFCommand.listSubscriptions] := by
  exact ⟨rfl, rfl⟩

/-- C6 (amended): the reader's timeout is 5 seconds and each timeout
injects one `LIST_SUBSCRIPTIONS` keepalive (while the command channel
is up); the connection is dropped only on a close frame, a read error,
or the end of the stream — read timeouts alone, however many and
however consecutive, never terminate the reader loop. -/
theorem market_reader_keepalive_spec :
    mfReadTimeoutSecs = 5 ∧
    (∀ st : MFReaderState, st.alive = true →
      mfReaderStep true st .timedOut =
        { alive := true, injected := st.injected ++ [MFCommand.listSubscriptions] }) ∧
    (∀ (chUp : Bool) (st : MFReaderState),
      (mfReaderStep chUp st .closeFrame).alive = false ∧
      (mfReaderStep chUp st .readError).alive = false ∧
      (mfReaderStep chUp st .streamEnded).alive = false) ∧
    (∀ os : List ReadOutcome, (∀ o ∈ os, o = .timedOut) →
      (mfReaderRun true os).alive = true) := by
  refine ⟨rfl, ?_, ?_, ?_⟩
  · intro st h
    simp [mfReaderStep, h]
  · intro chUp st
    by_cases h : st.alive = true
    · refine ⟨?_, ?_, ?_⟩ <;> simp [mfReaderStep, h]
    · have h2 : st.alive = false := by simpa using h
      refine ⟨?_, ?_, ?_⟩ <;> simp [mfReaderStep, h2]
  · have key : ∀ (os : List ReadOutcome), (∀ o ∈ os, o = .timedOut) →
        ∀ st : MFReaderState, st.alive = true →
        (os.foldl (mfReaderStep true) st).alive = true := by
      intro os
      induction os with
      | nil => intro _ st h; exact h
      | cons o rest ih =>
        intro hall st h
        have ho : o = .timedOut := hall o (List.mem_cons_self _ _)
        subst ho
        have hstep : (mfReaderStep true st .timedOut).alive = true := by
          simp [mfReaderStep, h]
        exact ih (fun o2 ho2 => hall o2 (List.mem_cons_of_mem _ ho2)) _ hstep
    intro os hall
    exact key os hall mfReaderInit rfl

/-- Witness for the amended C6 theorem: a single timeout injects one
keepalive from the initial state, and three straight timeouts leave
the reader alive. -/
theorem market_reader_keepalive_witness :
    mfReaderStep true mfReaderInit .timedOut =
      { alive := true, injected := [MFCommand.listSubscriptions] } ∧
    (mfReaderRun true [.timedOut, .timedOut, .timedOut]).alive = true := by
  constructor
  · have h := market_reader_keepalive_spec.2.1 mfReaderInit rfl
    simpa [mfReaderInit] using h
  · exact market_reader_keepalive_spec.2.2.2 [.timedOut, .timedOut, .timedOut] (by decide)

-- ═══════════════════════════════════════════════════════════════════
-- Claim theorems: signed limit-order payload (C7)
-- ═══════════════════════════════════════════════════════════════════

/-- C7 (counterexample): the claimed canonical query for
`place(price=100, qty=0.1, side='B', type=LIMIT)` is not what the code
signs. ryu formats the f64 100 as `100.0` (never bare `100`), and the
side string is only uppercased, never expanded to `BUY`, so the signed
query reads `price=100.0` and `side=B` where the claim says
`price=100` and `side=BUY`. -/
theorem limit_order_query_example :
    canonicalQuery (limitOrderParams "K" (ryuFormat false 100 0) (ryuFormat false 1 1)
        "B" "SOLUSDT" "T") =
      "apiKey=K&positionSide=BOTH&price=100.0&quantity=0.1&recvWindow=5000&side=B&symbol=SOLUSDT&timeInForce=GTC&timestamp=T&type=LIMIT" ∧
    canonicalQuery (limitOrderParams "K" (ryuFormat false 100 0) (ryuFormat false 1 1)
        "B" "SOLUSDT" "T") ≠
      "apiKey=K&positionSide=BOTH&price=100&quantity=0.1&recvWindow=5000&side=BUY&symbol=SOLUSDT&timeInForce=GTC&timestamp=T&type=LIMIT" := by
  exact ⟨by decide, by decide⟩

/-- C7 (amended): the limit-order wire payload is the JSON envelope
`{id, method: "order.place", params}`; the signed parameters are
assembled in strictly increasing lexicographic key order with the
fixed key set of the source, and the appended `signature` parameter is
the hex HMAC-SHA-256 of the canonical query (the urlencoded `k=v`
join, without `signature`) under the secret key. For the concrete
scenario inputs the canonical query has `price=100.0` (ryu keeps a
fractional part on integral values) and `side=B` (the side string is
uppercased, not expanded). -/
theorem limit_order_message_spec :
    (∀ (api_key price_str qty_str side symbol ts : String),
      (limitOrderParams api_key price_str qty_str side symbol ts).map Prod.fst =
        ["apiKey", "positionSide", "price", "quantity", "recvWindow", "side",
         "symbol", "timeInForce", "timestamp", "type"]) ∧
    List.Pairwise (fun a b : String => strLt a b = true)
      ["apiKey", "positionSide", "price", "quantity", "recvWindow", "side",
       "symbol", "timeInForce", "timestamp", "type"] ∧
    (∀ (id api_key secret symbol side ts : String)
       (pn qn : Bool) (pd pf qd qf : Nat),
      (buildLimitOrderMessage id api_key secret symbol pn pd pf qn qd qf side ts).method =
        "order.place" ∧
      (buildLimitOrderMessage id api_key secret symbol pn pd pf qn qd qf side ts).id = id ∧
      (buildLimitOrderMessage id api_key secret symbol pn pd pf qn qd qf side ts).params.map
          Prod.fst =
        ["apiKey", "positionSide", "price", "quantity", "recvWindow", "side",
         "symbol", "timeInForce", "timestamp", "type", "signature"] ∧
      (buildLimitOrderMessage id api_key secret symbol pn pd pf qn qd qf side ts).params.getLast? =
        some ("signature", .pstr (querySignature secret (canonicalQuery
          (limitOrderParams api_key (ryuFormat pn pd pf) (ryuFormat qn qd qf) side symbol ts))))) ∧
    (∀ secret q : String, querySignature secret q =
      hexEncode (hmacSha256 (asciiBytes secret) (asciiBytes q))) ∧
    ryuFormat false 100 0 = "100.0" ∧
    ryuFormat false 1 1 = "0.1" ∧
    asciiUpper "B" = "B" := by
  refine ⟨?_, by decide, ?_, fun _ _ => rfl, by decide, by decide, by decide⟩
  · intro api_key price_str qty_str side symbol ts
    rfl
  · intro id api_key secret symbol side ts pn qn pd pf qd qf
    exact ⟨rfl, rfl, rfl, rfl⟩

-- ═══════════════════════════════════════════════════════════════════
-- Claim theorems: ACCOUNT_UPDATE parsing (C8)
-- ═══════════════════════════════════════════════════════════════════

/-- Shape of `parse_account` on a non-empty balances array. -/
theorem parse_account_nonempty (raw : RawAccountEvent) (h : raw.balances ≠ []) :
    parse_account raw =
      some { event_time := raw.event_time
             reason_code := map_reason raw.reason
             balances_count := min raw.balances.length 10
             balances := (raw.balances.take 10).map convBalance ++
               List.replicate (10 - min raw.balances.length 10) emptyBalanceItem } := by
  have hne : raw.balances.isEmpty = false := by
    cases hb : raw.balances with
    | nil => exact absurd hb h
    | cons a l => simp [hb]
  simp [parse_account, hne]

/-- C8: an `ACCOUNT_UPDATE` whose balances array is empty produces no
event at all; a non-empty one always produces an event whose
`balances_count` is `min(len, 10)`; and with more than 10 items the
event keeps exactly the first 10 converted items with
`balances_count = 10`. -/
theorem account_update_empty_and_truncation_spec :
    (∀ raw : RawAccountEvent, raw.balances = [] → parse_account raw = none) ∧
    (∀ raw : RawAccountEvent, raw.balances ≠ [] →
      parse_account raw =
        some { event_time := raw.event_time
               reason_code := map_reason raw.reason
               balances_count := min raw.balances.length 10
               balances := (raw.balances.take 10).map convBalance ++
                 List.replicate (10 - min raw.balances.length 10) emptyBalanceItem }) ∧
    (∀ raw : RawAccountEvent, 10 < raw.balances.length →
      parse_account raw =
        some { event_time := raw.event_time
               reason_code := map_reason raw.reason
               balances_count := 10
               balances := (raw.balances.take 10).map convBalance }) := by
  refine ⟨?_, ?_, ?_⟩
  · intro raw h
    simp [parse_account, h]
  · exact parse_account_nonempty
  · intro raw h
    have hne : raw.balances ≠ [] := by
      intro he
      rw [he] at h
      simp at h
    rw [parse_account_nonempty raw hne]
    have hmin : min raw.balances.length 10 = 10 := Nat.min_eq_right (by omega)
    simp [hmin]

/-- Witness for the C8 theorem: an empty array is suppressed; an array
of 11 items is truncated to 10 with `balances_count = 10`. -/
theorem account_update_truncation_witness :
    parse_account { event_time := 5, reason := "ORDER", balances := [] } = none ∧
    parse_account { event_time := 7, reason := "FUNDING_FEE",
                    balances := List.replicate 11
                      { asset := "USDT", wallet_balance := "1.5",
                        cross_wallet_balance := "2", balance_change := "-0.1" } } =
      some { event_time := 7, reason_code := 4, balances_count := 10,
             balances := ((List.replicate 11
               ({ asset := "USDT", wallet_balance := "1.5",
                  cross_wallet_balance := "2",
                  balance_change := "-0.1" } : RawBalance)).take 10).map convBalance } := by
  constructor
  · exact account_update_empty_and_truncation_spec.1 _ rfl
  · exact account_update_empty_and_truncation_spec.2.2 _ (by simp)

-- ═══════════════════════════════════════════════════════════════════
-- Claim theorems: numeric-field fallback (C9)
-- ═══════════════════════════════════════════════════════════════════

/-- C9: a numeric string field that fails to parse as f64 is replaced
by 0.0 while the event is still produced: the `unwrap_or(0.0)` idiom
yields zero on any parse failure, the book-ticker and trade paths
always publish for a deserialized frame, and the user-data paths fill
the affected field with zero (including a missing or unparsable
commission) without skipping the event. -/
theorem unparsable_numeric_fields_default_zero_spec :
    (∀ s : String, parseF64 s = none → parseF64OrZero s = FVal.zero) ∧
    (∀ bt : RawBookTicker, mfHandleFrame (.bookFrame bt) = some (.inl (mfBookTickerEvent bt))) ∧
    (∀ bt : RawBookTicker, parseF64 bt.bid_price = none →
      (mfBookTickerEvent bt).bid_price = FVal.zero) ∧
    (∀ bt : RawBookTicker, parseF64 bt.ask_qty = none →
      (mfBookTickerEvent bt).ask_qty = FVal.zero) ∧
    (∀ t : RawTrade, mfHandleFrame (.tradeFrame t) = some (.inr (mfTradeEvent t))) ∧
    (∀ t : RawTrade, parseF64 t.price = none → (mfTradeEvent t).price = FVal.zero) ∧
    (∀ t : RawTrade, parseF64 t.qty = none → (mfTradeEvent t).qty = FVal.zero) ∧
    (∀ raw : RawOrderEvent, parseF64 raw.order.original_price = none →
      (parse_order raw).price = FVal.zero) ∧
    (∀ (raw : RawOrderEvent) (cs : String), raw.order.commission = some cs →
      parseF64 cs = none → (parse_order raw).commission = FVal.zero) ∧
    (∀ b : RawBalance, parseF64 b.wallet_balance = none →
      (convBalance b).wallet_balance = FVal.zero) := by
  refine ⟨?_, ?_, ?_, ?_, ?_, ?_, ?_, ?_, ?_, ?_⟩
  · intro s h
    simp [parseF64OrZero, h]
  · intro bt
    rfl
  · intro bt h
    simp [mfBookTickerEvent, parseF64OrZero, h]
  · intro bt h
    simp [mfBookTickerEvent, parseF64OrZero, h]
  · intro t
    rfl
  · intro t h
    simp [mfTradeEvent, parseF64OrZero, h]
  · intro t h
    cases hm : t.is_maker <;>
      simp [mfTradeEvent, parseF64OrZero, h, FVal.zero, FVal.neg, hm]
  · intro raw h
    simp [parse_order, parse_f64, parseF64OrZero, h]
  · intro raw cs h1 h2
    simp [parse_order, h1, parse_f64, parseF64OrZero, h2]
  · intro b h
    simp [convBalance, parse_f64, parseF64OrZero, h]

/-- Witness for the C9 theorem on a frame whose numeric fields are the
unparsable string "abc". -/
theorem unparsable_numeric_fields_witness :
    (mfBookTickerEvent { symbol := "SOLUSDT", bid_price := "abc", ask_price := "1.5",
                         bid_qty := "2", ask_qty := "3", time := 9 }).bid_price =
      FVal.zero ∧
    (mfTradeEvent { symbol := "SOLUSDT", price := "1.5", qty := "abc",
                    is_maker := true, time := 9 }).qty = FVal.zero ∧
    parseF64OrZero "abc" = FVal.zero := by
  refine ⟨?_, ?_, ?_⟩
  · exact unparsable_numeric_fields_default_zero_spec.2.2.1 _ (by decide)
  · exact unparsable_numeric_fields_default_zero_spec.2.2.2.2.2.2.1 _ (by decide)
  · exact unparsable_numeric_fields_default_zero_spec.1 _ (by decide)

-- ═══════════════════════════════════════════════════════════════════
-- Claim theorems: symbol truncation capacities (C10)
-- ═══════════════════════════════════════════════════════════════════

/-- Taking as many elements as the left part of an append returns the
left part. -/
theorem take_append_of_length_eq {α : Type} {l m : List α} {n : Nat}
    (h : l.length = n) : (l ++ m).take n = l := by
  subst h
  exact List.take_left l m

/-- Stored prefix of a `copyStr` buffer. -/
theorem copyStr_take (N : Nat) (src : List Nat) :
    (copyStr N src).bytes.take (copyStr N src).len = src.take (copyStr N src).len := by
  show ((src.take (min src.length N)) ++
      List.replicate (N - min src.length N) 0).take (min src.length N) =
    src.take (min src.length N)
  apply take_append_of_length_eq
  rw [List.length_take]
  omega

/-- Stored prefix of the MarketFeed symbol buffer. -/
theorem mfCopySymbol_take (sym : List Nat) :
    (mfCopySymbol sym).bytes.take (mfCopySymbol sym).len =
      sym.take (mfCopySymbol sym).len := by
  show ((sym.take (min sym.length 15)) ++
      List.replicate (16 - min sym.length 15) 0).take (min sym.length 15) =
    sym.take (min sym.length 15)
  apply take_append_of_length_eq
  rw [List.length_take]
  omega

/-- C10: the two ingestion paths truncate to different capacities. The
MarketFeed symbol copy stores at most the first 15 bytes into its
16-byte buffer (`len = min(len, 15) ≤ 15`), while the user-data
`copy_str` fills its buffers to full capacity (16-byte symbol, 32-byte
client id, 8-byte asset); in both paths oversized strings are silently
truncated, the stored bytes are the source prefix of the recorded
length, and the length field records the stored length. A 16-byte
symbol shows the difference: 15 on the market path, 16 on the user
path. -/
theorem symbol_truncation_capacities_spec :
    (∀ sym : List Nat, (mfCopySymbol sym).len = min sym.length 15) ∧
    (∀ sym : List Nat, (mfCopySymbol sym).len ≤ 15) ∧
    (∀ sym : List Nat, (mfCopySymbol sym).bytes.take (mfCopySymbol sym).len =
      sym.take (mfCopySymbol sym).len) ∧
    (∀ (N : Nat) (src : List Nat), (copyStr N src).len = min src.length N) ∧
    (∀ (N : Nat) (src : List Nat), (copyStr N src).len ≤ N) ∧
    (∀ (N : Nat) (src : List Nat), (copyStr N src).bytes.take (copyStr N src).len =
      src.take (copyStr N src).len) ∧
    ((mfCopySymbol (List.range 16)).len = 15 ∧
     (copyStr 16 (List.range 16)).len = 16 ∧
     (copyStr 32 (List.range 40)).len = 32 ∧
     (copyStr 8 (List.range 40)).len = 8) := by
  refine ⟨?_, ?_, mfCopySymbol_take, ?_, ?_, copyStr_take, by decide, by decide,
          by decide, by decide⟩
  · intro sym
    rfl
  · intro sym
    simp [mfCopySymbol]
  · intro N src
    rfl
  · intro N src
    simp [copyStr]
